import Mathlib

/-!
Shallow embedding of the filter-to-pipeline compiler of `rust-db-manager`
(`src/commons/utils.rs`), together with the query descriptor
(`src/domain/filter/data_base_query.rs`) and the `find_all` /
`find_all_lite` delegation of
`src/infrastructure/repository/mongo_db/mongo_db_repository.rs`.

Rust `Vec<String>` buckets become `List String` with push as append at the
end; Rust `format!` calls become explicit string concatenation (the brace
characters of the Rust format strings are written with `\x7b` / `\x7d`
escapes); `Vec::join(", ")` becomes `String.intercalate ", "`.
-/

/-- Modelled from the spec: the category enumeration
(`domain/filter/e_filter_category.rs` is not under `src/`); spec section 3
lists exactly these seven categories. -/
inductive EFilterCategory where
| ROOT
| COLLECTION
| QUERY
| ID
| STRING
| BOOLEAN
| NUMERIC
deriving DecidableEq, Repr

mutual

/-- Modelled from the spec: a named, ownable node
(`domain/filter/filter_element.rs` is not under `src/`): `field`, an owned
`FilterValue`, `is_or`, `is_negate` (spec section 3). -/
inductive FilterElement where
| mk (field : String) (value : FilterValue) (is_or : Bool) (is_negate : Bool)

/-- Modelled from the spec: the payload of a node
(`domain/filter/filter_value.rs` is not under `src/`): `category`, the raw
textual value, and the ordered children (spec section 3). -/
inductive FilterValue where
| mk (category : EFilterCategory) (value : String) (children : FilterElements)

/-- Modelled from the spec: the ordered sequence of children (`Vec<FilterElement>`
in the source), given as its own inductive so that the mutual recursion of the
compiler is structural. -/
inductive FilterElements where
| nil
| cons (head : FilterElement) (tail : FilterElements)

end

def FilterElement.field : FilterElement → String
| .mk f _ _ _ => f

def FilterElement.value : FilterElement → FilterValue
| .mk _ v _ _ => v

def FilterElement.is_or : FilterElement → Bool
| .mk _ _ o _ => o

def FilterElement.is_negate : FilterElement → Bool
| .mk _ _ _ n => n

def FilterValue.category : FilterValue → EFilterCategory
| .mk c _ _ => c

def FilterValue.value : FilterValue → String
| .mk _ v _ => v

def FilterValue.children : FilterValue → FilterElements
| .mk _ _ ch => ch

/-- The accumulator threaded through the traversal (`QueryItems` in
`src/commons/utils.rs`, lines 8-12). -/
structure QueryItems where
  and_fields : List String
  or_fields : List String
  queries : List String
deriving DecidableEq, Repr

mutual

/-- `FilterElement::_as_mongo_agregate` (`src/commons/utils.rs`, lines 54-113). -/
def FilterElement._as_mongo_agregate : FilterElement → QueryItems → QueryItems
| .mk field value is_or is_negate, registry0 =>
  let result := value.as_mongo_agregate registry0
  let v := result.1
  let registry := result.2
  let category := value.category
  if category = .ROOT then
    registry
  else if category = .COLLECTION then
    -- lines 68-93: fold the buckets into one grouped clause
    let block : List String := []
    let step1 :=
      if ¬ registry.and_fields.isEmpty then
        (block ++ ["\"$and\": [ " ++ String.intercalate ", " registry.and_fields ++ " ]"],
         { registry with and_fields := [] })
      else (block, registry)
    -- line 77 of the source re-tests `and_fields` (not `or_fields`) here
    let step2 :=
      if ¬ step1.2.and_fields.isEmpty then
        (step1.1 ++ ["\"$or\": [ " ++ String.intercalate ", " step1.2.or_fields ++ " ]"],
         { step1.2 with or_fields := [] })
      else step1
    if ¬ step2.1.isEmpty then
      let query := " \x7b " ++ String.intercalate ", " step2.1 ++ " \x7d "
      if is_or then { step2.2 with or_fields := step2.2.or_fields ++ [query] }
      else { step2.2 with and_fields := step2.2.and_fields ++ [query] }
    else step2.2
  else if category = .QUERY then
    { registry with queries := registry.queries ++ [v] }
  else
    let v2 := if is_negate then "\x7b \"$not\": \x7b \"$eq\": " ++ v ++ " \x7d \x7d" else v
    let query := "\x7b \"" ++ field ++ "\": " ++ v2 ++ " \x7d"
    if is_or then { registry with or_fields := registry.or_fields ++ [query] }
    else { registry with and_fields := registry.and_fields ++ [query] }

/-- `FilterValue::as_mongo_agregate` (`src/commons/utils.rs`, lines 119-130). -/
def FilterValue.as_mongo_agregate : FilterValue → QueryItems → String × QueryItems
| .mk category value children, registry =>
  match category with
  | .ID => ("\"" ++ value ++ "\"", registry)
  | .QUERY => (value, registry)
  | .STRING => ("\"" ++ value ++ "\"", registry)
  | .BOOLEAN => (value, registry)
  | .NUMERIC => (value, registry)
  | .COLLECTION => (value, FilterValue.collection_as_mongo_agregate children registry)
  | .ROOT => (value, FilterValue.collection_as_mongo_agregate children registry)

/-- `FilterValue::collection_as_mongo_agregate` (`src/commons/utils.rs`,
lines 132-138): fold the children left-to-right through the registry. -/
def FilterValue.collection_as_mongo_agregate : FilterElements → QueryItems → QueryItems
| .nil, registry => registry
| .cons child rest, registry =>
  FilterValue.collection_as_mongo_agregate rest (child._as_mongo_agregate registry)

end

/-- A parsed JSON value, the model of the target store's document
representation produced by the parse step. Numbers keep their source
lexeme, which is all the pipeline claims depend on. -/
inductive JsonValue where
| null
| bool (b : Bool)
| num (lexeme : String)
| str (s : String)
| arr (items : List JsonValue)
| obj (fields : List (String × JsonValue))

/-- A document is a JSON object: an ordered field list (the model of
`mongodb::bson::Document`). -/
abbrev Document := List (String × JsonValue)

def skipWs : List Char → List Char
| [] => []
| c :: cs => if c = ' ' ∨ c = '\n' ∨ c = '\t' ∨ c = '\r' then skipWs cs else c :: cs

def hexVal (c : Char) : Option Nat :=
  if '0' ≤ c ∧ c ≤ '9' then some (c.toNat - '0'.toNat)
  else if 'a' ≤ c ∧ c ≤ 'f' then some (c.toNat - 'a'.toNat + 10)
  else if 'A' ≤ c ∧ c ≤ 'F' then some (c.toNat - 'A'.toNat + 10)
  else none

def parseStringBody : List Char → List Char → Except String (String × List Char)
| _, [] => .error "unexpected end of string literal"
| acc, c :: cs =>
  if c = '"' then .ok (String.mk acc.reverse, cs)
  else if c = '\\' then
    match cs with
    | [] => .error "unexpected end of string literal"
    | e :: cs2 =>
      if e = '"' then parseStringBody ('"' :: acc) cs2
      else if e = '\\' then parseStringBody ('\\' :: acc) cs2
      else if e = '/' then parseStringBody ('/' :: acc) cs2
      else if e = 'n' then parseStringBody ('\n' :: acc) cs2
      else if e = 't' then parseStringBody ('\t' :: acc) cs2
      else if e = 'r' then parseStringBody ('\r' :: acc) cs2
      else if e = 'b' then parseStringBody (Char.ofNat 8 :: acc) cs2
      else if e = 'f' then parseStringBody (Char.ofNat 12 :: acc) cs2
      else if e = 'u' then
        match cs2 with
        | h1 :: h2 :: h3 :: h4 :: cs3 =>
          match hexVal h1, hexVal h2, hexVal h3, hexVal h4 with
          | some a, some b, some c3, some d =>
            parseStringBody (Char.ofNat (a * 4096 + b * 256 + c3 * 16 + d) :: acc) cs3
          | _, _, _, _ => .error "invalid unicode escape"
        | _ => .error "invalid unicode escape"
      else .error "invalid escape"
  else parseStringBody (c :: acc) cs

def takeDigits : List Char → List Char × List Char
| [] => ([], [])
| c :: cs =>
  if '0' ≤ c ∧ c ≤ '9' then
    let r := takeDigits cs
    (c :: r.1, r.2)
  else ([], c :: cs)

def parseFrac (cs : List Char) : Except String (List Char × List Char) :=
  match cs with
  | '.' :: cs2 =>
    let fd := takeDigits cs2
    if fd.1.isEmpty then .error "invalid number" else .ok ('.' :: fd.1, fd.2)
  | _ => .ok ([], cs)

def parseExpTail (cs : List Char) (pfx : List Char) : Except String (List Char × List Char) :=
  let signed : List Char × List Char :=
    match cs with
    | '+' :: r => (pfx ++ ['+'], r)
    | '-' :: r => (pfx ++ ['-'], r)
    | r => (pfx, r)
  let d := takeDigits signed.2
  if d.1.isEmpty then .error "invalid number" else .ok (signed.1 ++ d.1, d.2)

def parseExp (cs : List Char) : Except String (List Char × List Char) :=
  match cs with
  | 'e' :: cs2 => parseExpTail cs2 ['e']
  | 'E' :: cs2 => parseExpTail cs2 ['E']
  | _ => .ok ([], cs)

def parseNumber (cs0 : List Char) : Except String (String × List Char) := do
  let signed : List Char × List Char :=
    match cs0 with
    | '-' :: cs => (['-'], cs)
    | cs => ([], cs)
  let ip := takeDigits signed.2
  if ip.1.isEmpty then .error "expected value" else
  let fr ← parseFrac ip.2
  let ex ← parseExp fr.2
  .ok (String.mk (signed.1 ++ ip.1 ++ fr.1 ++ ex.1), ex.2)

def dropLit : List Char → List Char → Option (List Char)
| [], cs => some cs
| l :: ls, c :: cs => if c = l then dropLit ls cs else none
| _ :: _, [] => none

mutual

def parseValue : Nat → List Char → Except String (JsonValue × List Char)
| 0, _ => .error "recursion depth exceeded"
| fuel + 1, cs =>
  match skipWs cs with
  | [] => .error "unexpected end of input"
  | c :: rest =>
    if c = '"' then
      match parseStringBody [] rest with
      | .error e => .error e
      | .ok (s, r) => .ok (.str s, r)
    else if c = '[' then
      match skipWs rest with
      | ']' :: r => .ok (.arr [], r)
      | r2 => parseArrayItems fuel [] r2
    else if c = '\x7b' then
      match skipWs rest with
      | '\x7d' :: r => .ok (.obj [], r)
      | r2 => parseObjFields fuel [] r2
    else if c = 't' then
      match dropLit ['r', 'u', 'e'] rest with
      | some r => .ok (.bool true, r)
      | none => .error "expected value"
    else if c = 'f' then
      match dropLit ['a', 'l', 's', 'e'] rest with
      | some r => .ok (.bool false, r)
      | none => .error "expected value"
    else if c = 'n' then
      match dropLit ['u', 'l', 'l'] rest with
      | some r => .ok (.null, r)
      | none => .error "expected value"
    else if c = '-' ∨ ('0' ≤ c ∧ c ≤ '9') then
      match parseNumber (c :: rest) with
      | .error e => .error e
      | .ok (s, r) => .ok (.num s, r)
    else .error "expected value"

def parseArrayItems : Nat → List JsonValue → List Char → Except String (JsonValue × List Char)
| 0, _, _ => .error "recursion depth exceeded"
| fuel + 1, acc, cs =>
  match parseValue fuel cs with
  | .error e => .error e
  | .ok (v, r) =>
    match skipWs r with
    | ',' :: r2 => parseArrayItems fuel (acc ++ [v]) r2
    | ']' :: r2 => .ok (.arr (acc ++ [v]), r2)
    | _ => .error "expected comma or closing bracket"

def parseObjFields : Nat → List (String × JsonValue) → List Char → Except String (JsonValue × List Char)
| 0, _, _ => .error "recursion depth exceeded"
| fuel + 1, acc, cs =>
  match skipWs cs with
  | '"' :: r =>
    match parseStringBody [] r with
    | .error e => .error e
    | .ok (k, r2) =>
      match skipWs r2 with
      | ':' :: r3 =>
        match parseValue fuel r3 with
        | .error e => .error e
        | .ok (v, r4) =>
          match skipWs r4 with
          | ',' :: r5 => parseObjFields fuel (acc ++ [(k, v)]) r5
          | '\x7d' :: r5 => .ok (.obj (acc ++ [(k, v)]), r5)
          | _ => .error "expected comma or closing brace"
      | _ => .error "expected colon"
  | _ => .error "expected object key"

end

def documentsOf : List JsonValue → Except String (List Document)
| [] => .ok []
| .obj fields :: rest =>
  match documentsOf rest with
  | .error e => .error e
  | .ok ds => .ok (fields :: ds)
| _ :: _ => .error "invalid type: expected a document"

/-- Executable model of `serde_json::from_str::<Vec<Document>>`: parse the
text as JSON and require a top-level array whose elements are all
objects. -/
def from_str (s : String) : Except String (List Document) :=
  match parseValue (s.length + 1) s.data with
  | .error e => .error e
  | .ok (v, rest) =>
    if ¬ (skipWs rest).isEmpty then .error "trailing characters"
    else
      match v with
      | .arr items => documentsOf items
      | _ => .error "invalid type: expected a sequence"

/-- Modelled from the spec: the `CompileError` of the spec
(`commons/exception/connect_exception.rs` is not under `src/`); it carries
the underlying parser's diagnostic message (spec section 7). -/
structure ConnectException where
  message : String
deriving DecidableEq, Repr

def ConnectException.new (message : String) : ConnectException := ⟨message⟩

/-- The match-stage fragment list built in `as_mongo_agregate`
(`src/commons/utils.rs`, lines 21-31): the drained `$and` fragment, if any,
followed by the drained `$or` fragment, if any. -/
def QueryItems.matches_collection (registry : QueryItems) : List String :=
  (if ¬ registry.and_fields.isEmpty then
    ["\"$and\": [ " ++ String.intercalate ", " registry.and_fields ++ " ]"]
  else [])
  ++
  (if ¬ registry.or_fields.isEmpty then
    ["\"$or\": [ " ++ String.intercalate ", " registry.or_fields ++ " ]"]
  else [])

/-- The stage list built in `as_mongo_agregate` (`src/commons/utils.rs`,
lines 20-41): the `$match` stage when any match fragment exists, then the
joined raw stages when any exist. -/
def QueryItems.result (registry : QueryItems) : List String :=
  (if ¬ registry.matches_collection.isEmpty then
    ["\x7b \"$match\": \x7b " ++ String.intercalate ", " registry.matches_collection ++ " \x7d \x7d"]
  else [])
  ++
  (if ¬ registry.queries.isEmpty then [String.intercalate ", " registry.queries] else [])

/-- The assembled pipeline text (`src/commons/utils.rs`, line 43). -/
def QueryItems.pipeline_str (registry : QueryItems) : String :=
  "[ " ++ String.intercalate ", " registry.result ++ " ]"

/-- `FilterElement::as_mongo_agregate` (`src/commons/utils.rs`, lines 16-52):
walk the tree against a fresh registry, assemble the pipeline text, and
parse it, surfacing a parse failure as a `ConnectException` with the
parser's message. -/
def FilterElement.as_mongo_agregate (e : FilterElement) : Except ConnectException (List Document) :=
  let registry := e._as_mongo_agregate ⟨[], [], []⟩
  match from_str registry.pipeline_str with
  | .error err => .error (ConnectException.new err)
  | .ok pipeline => .ok pipeline

/-- `DataBaseQuery` (`src/domain/filter/data_base_query.rs`, lines 3-8). -/
structure DataBaseQuery where
  data_base : String
  collection : String
  filter : Option FilterElement

/-- `DataBaseQuery::from` (`src/domain/filter/data_base_query.rs`, lines
12-18); `from` is a Lean keyword, hence the quoted name. -/
def DataBaseQuery.«from» (data_base : String) (collection : String) : DataBaseQuery :=
  { data_base := data_base, collection := collection, filter := none }

/-- `find_all` (`src/infrastructure/repository/mongo_db/mongo_db_repository.rs`,
lines 437-440): rebuild the query from only its database and collection
names, then delegate. The delegate `find_query` (driver I/O) is abstracted
as a function parameter. -/
def MongoDbRepository.find_all {α : Type} (find_query : DataBaseQuery → α)
    (query : DataBaseQuery) : α :=
  let fix := DataBaseQuery.«from» query.data_base query.collection
  find_query fix

/-- `find_all_lite` (`src/infrastructure/repository/mongo_db/mongo_db_repository.rs`,
lines 432-435): rebuild the query from only its database and collection
names, then delegate. The delegate `find_query_lite` (driver I/O) is
abstracted as a function parameter. -/
def MongoDbRepository.find_all_lite {α : Type} (find_query_lite : DataBaseQuery → α)
    (query : DataBaseQuery) : α :=
  let fix := DataBaseQuery.«from» query.data_base query.collection
  find_query_lite fix

/-- The four leaf categories of the data model (spec section 3). -/
def EFilterCategory.isLeaf : EFilterCategory → Bool
| .ID => true
| .STRING => true
| .BOOLEAN => true
| .NUMERIC => true
| _ => false

/-- The destination-bucket routing of `_as_mongo_agregate`
(`src/commons/utils.rs`, lines 106-110): push into `or_fields` when
`is_or`, into `and_fields` otherwise. -/
def QueryItems.pushBucket (registry : QueryItems) (is_or : Bool) (query : String) : QueryItems :=
  if is_or then { registry with or_fields := registry.or_fields ++ [query] }
  else { registry with and_fields := registry.and_fields ++ [query] }

/-- The rendered comparison text of a value: the first component of
`FilterValue::as_mongo_agregate`, which never depends on the registry. -/
def FilterValue.rendered (v : FilterValue) : String :=
  (v.as_mongo_agregate ⟨[], [], []⟩).1

/-- The field-qualified clause a leaf element contributes
(`src/commons/utils.rs`, lines 100-104). -/
def leafClauseText (field : String) (v : FilterValue) (is_negate : Bool) : String :=
  let v2 :=
    if is_negate then "\x7b \"$not\": \x7b \"$eq\": " ++ v.rendered ++ " \x7d \x7d"
    else v.rendered
  "\x7b \"" ++ field ++ "\": " ++ v2 ++ " \x7d"

mutual

/-- The raw values of the `QUERY`-category nodes of an element, in traversal
order. -/
def FilterElement.queryRaws : FilterElement → List String
| .mk _ v _ _ => if v.category = .QUERY then [v.value] else v.queryRaws

/-- The raw values of the `QUERY`-category nodes traversed by
`FilterValue::as_mongo_agregate` (children are traversed only for `ROOT`
and `COLLECTION`). -/
def FilterValue.queryRaws : FilterValue → List String
| .mk c _ ch =>
  match c with
  | .ROOT => FilterElements.queryRaws ch
  | .COLLECTION => FilterElements.queryRaws ch
  | _ => []

/-- The raw values of the `QUERY`-category nodes of a child list, in order. -/
def FilterElements.queryRaws : FilterElements → List String
| .nil => []
| .cons e rest => e.queryRaws ++ rest.queryRaws

end

theorem intercalate_singleton (s a : String) : String.intercalate s [a] = a := rfl

theorem intercalate_pair (s a b : String) : String.intercalate s [a, b] = a ++ s ++ b := rfl

/-- The grouped clause a `COLLECTION` fold produces from a non-empty
conjunction bucket (`src/commons/utils.rs`, lines 72 and 84). -/
def andGroupText (fields : List String) : String :=
  " \x7b " ++ ("\"$and\": [ " ++ String.intercalate ", " fields ++ " ]") ++ " \x7d "

theorem leaf_agg (f : String) (c : EFilterCategory) (val : String) (ch : FilterElements)
    (o n : Bool) (r : QueryItems) (h : c.isLeaf = true) :
    (FilterElement.mk f (.mk c val ch) o n)._as_mongo_agregate r =
      r.pushBucket o (leafClauseText f (.mk c val ch) n) := by
  cases c <;> simp_all [FilterElement._as_mongo_agregate, FilterValue.as_mongo_agregate,
    EFilterCategory.isLeaf, QueryItems.pushBucket, leafClauseText, FilterValue.rendered,
    FilterValue.category]

theorem query_agg (f val : String) (ch : FilterElements) (o n : Bool) (r : QueryItems) :
    (FilterElement.mk f (.mk .QUERY val ch) o n)._as_mongo_agregate r =
      { r with queries := r.queries ++ [val] } := by
  simp [FilterElement._as_mongo_agregate, FilterValue.as_mongo_agregate, FilterValue.category]

theorem root_agg (f val : String) (ch : FilterElements) (o n : Bool) (r : QueryItems) :
    (FilterElement.mk f (.mk .ROOT val ch) o n)._as_mongo_agregate r =
      FilterValue.collection_as_mongo_agregate ch r := by
  simp [FilterElement._as_mongo_agregate, FilterValue.as_mongo_agregate, FilterValue.category]

theorem collection_agg (f val : String) (ch : FilterElements) (o n : Bool) (r : QueryItems) :
    (FilterElement.mk f (.mk .COLLECTION val ch) o n)._as_mongo_agregate r =
      (let R := FilterValue.collection_as_mongo_agregate ch r
       if R.and_fields.isEmpty then R
       else ({ R with and_fields := [] } : QueryItems).pushBucket o (andGroupText R.and_fields)) := by
  simp only [FilterElement._as_mongo_agregate, FilterValue.as_mongo_agregate, FilterValue.category]
  generalize FilterValue.collection_as_mongo_agregate ch r = R
  obtain ⟨af, ofl, qs⟩ := R
  cases af with
  | nil => simp [QueryItems.pushBucket, andGroupText]
  | cons a as => cases o <;> simp [QueryItems.pushBucket, andGroupText, intercalate_singleton]

mutual

theorem FilterElement.elem_agg_queries (e : FilterElement) (r : QueryItems) :
    (e._as_mongo_agregate r).queries = r.queries ++ e.queryRaws := by
  cases e with
  | mk f v o n =>
    cases v with
    | mk c val ch =>
      cases c with
      | ROOT =>
        rw [root_agg]
        have hch := FilterElements.elems_agg_queries ch r
        simpa [FilterElement.queryRaws, FilterValue.queryRaws, FilterValue.category] using hch
      | COLLECTION =>
        rw [collection_agg]
        have hch := FilterElements.elems_agg_queries ch r
        simp only [FilterElement.queryRaws, FilterValue.queryRaws, FilterValue.category]
        split
        · simpa [FilterValue.queryRaws] using hch
        · cases o <;>
            simpa [QueryItems.pushBucket, FilterValue.queryRaws] using hch
      | QUERY =>
        rw [query_agg]
        simp [FilterElement.queryRaws, FilterValue.queryRaws, FilterValue.category, FilterValue.value]
      | ID =>
        rw [leaf_agg f .ID val ch o n r rfl]
        cases o <;>
          simp [QueryItems.pushBucket, FilterElement.queryRaws, FilterValue.queryRaws, FilterValue.category]
      | STRING =>
        rw [leaf_agg f .STRING val ch o n r rfl]
        cases o <;>
          simp [QueryItems.pushBucket, FilterElement.queryRaws, FilterValue.queryRaws, FilterValue.category]
      | BOOLEAN =>
        rw [leaf_agg f .BOOLEAN val ch o n r rfl]
        cases o <;>
          simp [QueryItems.pushBucket, FilterElement.queryRaws, FilterValue.queryRaws, FilterValue.category]
      | NUMERIC =>
        rw [leaf_agg f .NUMERIC val ch o n r rfl]
        cases o <;>
          simp [QueryItems.pushBucket, FilterElement.queryRaws, FilterValue.queryRaws, FilterValue.category]

theorem FilterElements.elems_agg_queries (ch : FilterElements) (r : QueryItems) :
    (FilterValue.collection_as_mongo_agregate ch r).queries = r.queries ++ ch.queryRaws := by
  cases ch with
  | nil => simp [FilterValue.collection_as_mongo_agregate, FilterElements.queryRaws]
  | cons e rest =>
    have h1 := FilterElement.elem_agg_queries e r
    have h2 := FilterElements.elems_agg_queries rest (e._as_mongo_agregate r)
    rw [FilterValue.collection_as_mongo_agregate, h2, h1]
    simp [FilterElements.queryRaws]

end

mutual

theorem FilterElement.elem_agg_or_mono (e : FilterElement) (r : QueryItems) :
    ∃ t, (e._as_mongo_agregate r).or_fields = r.or_fields ++ t := by
  cases e with
  | mk f v o n =>
    cases v with
    | mk c val ch =>
      cases c with
      | ROOT =>
        rw [root_agg]
        exact FilterElements.elems_agg_or_mono ch r
      | COLLECTION =>
        rw [collection_agg]
        obtain ⟨t, ht⟩ := FilterElements.elems_agg_or_mono ch r
        simp only []
        split
        · exact ⟨t, ht⟩
        · cases o
          · exact ⟨t, by simpa [QueryItems.pushBucket] using ht⟩
          · refine ⟨t ++ [andGroupText (FilterValue.collection_as_mongo_agregate ch r).and_fields], ?_⟩
            simp [QueryItems.pushBucket, ht]
      | QUERY => exact ⟨[], by simp [query_agg]⟩
      | ID =>
        rw [leaf_agg f .ID val ch o n r rfl]
        cases o <;> simp [QueryItems.pushBucket]
      | STRING =>
        rw [leaf_agg f .STRING val ch o n r rfl]
        cases o <;> simp [QueryItems.pushBucket]
      | BOOLEAN =>
        rw [leaf_agg f .BOOLEAN val ch o n r rfl]
        cases o <;> simp [QueryItems.pushBucket]
      | NUMERIC =>
        rw [leaf_agg f .NUMERIC val ch o n r rfl]
        cases o <;> simp [QueryItems.pushBucket]

theorem FilterElements.elems_agg_or_mono (ch : FilterElements) (r : QueryItems) :
    ∃ t, (FilterValue.collection_as_mongo_agregate ch r).or_fields = r.or_fields ++ t := by
  cases ch with
  | nil => exact ⟨[], by simp [FilterValue.collection_as_mongo_agregate]⟩
  | cons e rest =>
    obtain ⟨t1, h1⟩ := FilterElement.elem_agg_or_mono e r
    obtain ⟨t2, h2⟩ := FilterElements.elems_agg_or_mono rest (e._as_mongo_agregate r)
    rw [FilterValue.collection_as_mongo_agregate] at *
    exact ⟨t1 ++ t2, by rw [h2, h1, List.append_assoc]⟩

end

/-- A `COLLECTION` element (`is_or = false`) whose single child is a
disjunctive (`is_or = true`) `STRING` leaf on field `a`: the input on which
the fold of `src/commons/utils.rs` lines 68-93 should drain `or_fields`. -/
def orLeafCollection : FilterElement :=
  .mk "" (.mk .COLLECTION "" (.cons (.mk "a" (.mk .STRING "x" .nil) true false) .nil)) false false

/-- Claim C1: the code contradicts the claim: compiling a `COLLECTION` node
whose children accumulated only disjunctive fragments drains nothing and
pushes no grouped clause, because line 77 of `src/commons/utils.rs`
re-tests `and_fields` (just cleared) instead of `or_fields`. This theorem
evaluates the embedded code at the failing input: the child's clause stays
in `or_fields`, and the result differs from the state the claim requires
(the clause drained into an `$or` fragment routed into `and_fields`). -/
theorem claim1_collection_or_never_drained :
    orLeafCollection._as_mongo_agregate ⟨[], [], []⟩ =
      ⟨[], ["\x7b \"a\": \"x\" \x7d"], []⟩ ∧
    orLeafCollection._as_mongo_agregate ⟨[], [], []⟩ ≠
      ⟨[" \x7b \"$or\": [ \x7b \"a\": \"x\" \x7d ] \x7d "], [], []⟩ :=
  ⟨rfl, by decide⟩

/-- A `COLLECTION` element whose two leaf children are both disjunctive. -/
def twoOrLeafCollection : FilterElement :=
  .mk "" (.mk .COLLECTION "" (.cons (.mk "a" (.mk .STRING "1" .nil) true false)
    (.cons (.mk "b" (.mk .STRING "2" .nil) true false) .nil))) false false

/-- A `COLLECTION` element whose single leaf child is conjunctive. -/
def andLeafCollection : FilterElement :=
  .mk "" (.mk .COLLECTION "" (.cons (.mk "b" (.mk .STRING "y" .nil) false false) .nil)) false false

/-- Claim C2, counterexample: processing a `COLLECTION` whose two leaf
children are disjunctive on an empty registry leaves two new fragments in
the buckets, not at most one; and processing a `COLLECTION` with a
conjunctive leaf child on a registry already holding a sibling's clause
folds that sibling's clause into the group, removing it from the bucket. -/
theorem claim2_counterexample :
    (twoOrLeafCollection._as_mongo_agregate ⟨[], [], []⟩).and_fields.length +
      (twoOrLeafCollection._as_mongo_agregate ⟨[], [], []⟩).or_fields.length = 2 ∧
    (andLeafCollection._as_mongo_agregate ⟨["\x7b \"a\": \"x\" \x7d"], [], []⟩).and_fields =
      [" \x7b \"$and\": [ \x7b \"a\": \"x\" \x7d, \x7b \"b\": \"y\" \x7d ] \x7d "] ∧
    ¬ "\x7b \"a\": \"x\" \x7d" ∈
      (andLeafCollection._as_mongo_agregate ⟨["\x7b \"a\": \"x\" \x7d"], [], []⟩).and_fields := by
  refine ⟨rfl, rfl, by decide⟩

/-- Claim C2, amended: after a `COLLECTION` element is processed, the
conjunction bucket holds at most one fragment in total (any and-fragments,
earlier siblings' included, were folded into the single group), while the
disjunction bucket is never drained: it keeps everything accumulated after
the children ran (which itself extends the incoming bucket), gaining at
most the folded group. The stage list is untouched by the fold. -/
theorem claim2_bucket_fold_amended (f val : String) (ch : FilterElements) (o n : Bool)
    (r : QueryItems) :
    ((FilterElement.mk f (.mk .COLLECTION val ch) o n)._as_mongo_agregate r).and_fields.length ≤ 1 ∧
    (∃ t, ((FilterElement.mk f (.mk .COLLECTION val ch) o n)._as_mongo_agregate r).or_fields =
      (FilterValue.collection_as_mongo_agregate ch r).or_fields ++ t ∧ t.length ≤ 1) ∧
    (∃ u, (FilterValue.collection_as_mongo_agregate ch r).or_fields = r.or_fields ++ u) ∧
    ((FilterElement.mk f (.mk .COLLECTION val ch) o n)._as_mongo_agregate r).queries =
      (FilterValue.collection_as_mongo_agregate ch r).queries := by
  rw [collection_agg]
  refine ⟨?_, ?_, FilterElements.elems_agg_or_mono ch r, ?_⟩
  all_goals
    generalize FilterValue.collection_as_mongo_agregate ch r = R
    obtain ⟨af, ofl, qs⟩ := R
  · cases af <;> cases o <;> simp [QueryItems.pushBucket]
  · cases af <;> cases o <;> simp [QueryItems.pushBucket]
  · cases af <;> cases o <;> simp [QueryItems.pushBucket]

/-- Claim C5: `FilterValue::as_mongo_agregate` renders `STRING` and `ID`
values enclosed in double quotes and renders `BOOLEAN` and `NUMERIC`
values bare, leaving the registry untouched in all four cases. -/
theorem claim5_leaf_quoting (val : String) (ch : FilterElements) (r : QueryItems) :
    (FilterValue.mk .STRING val ch).as_mongo_agregate r = ("\"" ++ val ++ "\"", r) ∧
    (FilterValue.mk .ID val ch).as_mongo_agregate r = ("\"" ++ val ++ "\"", r) ∧
    (FilterValue.mk .BOOLEAN val ch).as_mongo_agregate r = (val, r) ∧
    (FilterValue.mk .NUMERIC val ch).as_mongo_agregate r = (val, r) :=
  ⟨rfl, rfl, rfl, rfl⟩

/-- Claim C6: for every leaf element with `is_negate = true`, the clause
pushed wraps the rendered comparison value as
`\x7b "$not": \x7b "$eq": value \x7d \x7d` before field qualification;
with `is_negate = false` the plain rendered value is used unwrapped. -/
theorem claim6_negation (f : String) (c : EFilterCategory) (val : String) (ch : FilterElements)
    (o : Bool) (r : QueryItems) (h : c.isLeaf = true) :
    (FilterElement.mk f (.mk c val ch) o true)._as_mongo_agregate r =
      r.pushBucket o ("\x7b \"" ++ f ++ "\": " ++
        ("\x7b \"$not\": \x7b \"$eq\": " ++ (FilterValue.mk c val ch).rendered ++ " \x7d \x7d") ++
        " \x7d") ∧
    (FilterElement.mk f (.mk c val ch) o false)._as_mongo_agregate r =
      r.pushBucket o ("\x7b \"" ++ f ++ "\": " ++ (FilterValue.mk c val ch).rendered ++ " \x7d") := by
  constructor
  · rw [leaf_agg f c val ch o true r h]
    simp [leafClauseText]
  · rw [leaf_agg f c val ch o false r h]
    simp [leafClauseText]

/-- Claim C6 witness: the negated `NUMERIC` leaf of the spec's concrete
scenario (`age`, value `30`, `is_or = false`) produces exactly the
structural not-equal clause in `and_fields`. -/
theorem claim6_negation_witness :
    EFilterCategory.isLeaf .NUMERIC = true ∧
    (FilterElement.mk "age" (.mk .NUMERIC "30" .nil) false true)._as_mongo_agregate ⟨[], [], []⟩ =
      ⟨["\x7b \"age\": \x7b \"$not\": \x7b \"$eq\": 30 \x7d \x7d \x7d"], [], []⟩ := by
  refine ⟨rfl, ?_⟩
  have h := (claim6_negation "age" .NUMERIC "30" .nil false ⟨[], [], []⟩ rfl).1
  rw [h]
  rfl

/-- Claim C7: a leaf element's composed field-qualified clause lands in
`or_fields` exactly when `is_or` is true and in `and_fields` exactly when
`is_or` is false, never in both or in the opposite bucket, and the stage
list is untouched. -/
theorem claim7_bucket_routing (f : String) (c : EFilterCategory) (val : String)
    (ch : FilterElements) (o n : Bool) (r : QueryItems) (h : c.isLeaf = true) :
    ((FilterElement.mk f (.mk c val ch) o n)._as_mongo_agregate r).or_fields =
      (if o then r.or_fields ++ [leafClauseText f (.mk c val ch) n] else r.or_fields) ∧
    ((FilterElement.mk f (.mk c val ch) o n)._as_mongo_agregate r).and_fields =
      (if o then r.and_fields else r.and_fields ++ [leafClauseText f (.mk c val ch) n]) ∧
    ((FilterElement.mk f (.mk c val ch) o n)._as_mongo_agregate r).queries = r.queries := by
  rw [leaf_agg f c val ch o n r h]
  cases o <;> simp [QueryItems.pushBucket]

/-- Claim C7 witness: a disjunctive `STRING` leaf (`is_or = true`) lands in
`or_fields` only; a conjunctive one (`is_or = false`) lands in `and_fields`
only. -/
theorem claim7_bucket_routing_witness :
    EFilterCategory.isLeaf .STRING = true ∧
    ((FilterElement.mk "b" (.mk .STRING "y" .nil) true false)._as_mongo_agregate
        ⟨[], [], []⟩).or_fields = ["\x7b \"b\": \"y\" \x7d"] ∧
    ((FilterElement.mk "b" (.mk .STRING "y" .nil) true false)._as_mongo_agregate
        ⟨[], [], []⟩).and_fields = [] := by
  refine ⟨rfl, ?_, ?_⟩
  · have h := (claim7_bucket_routing "b" .STRING "y" .nil true false ⟨[], [], []⟩ rfl).1
    rw [h]
    rfl
  · have h := (claim7_bucket_routing "b" .STRING "y" .nil true false ⟨[], [], []⟩ rfl).2.1
    rw [h]
    rfl

/-- Claim C9: a tree whose `ROOT` has no children compiles to the empty
registry, producing no `$match` stage and no other stage, and
`as_mongo_agregate` succeeds with the empty document sequence. -/
theorem claim9_empty_tree (f val : String) (o n : Bool) :
    (FilterElement.mk f (.mk .ROOT val .nil) o n).as_mongo_agregate = .ok [] ∧
    ((FilterElement.mk f (.mk .ROOT val .nil) o n)._as_mongo_agregate ⟨[], [], []⟩).result = [] := by
  have h : (FilterElement.mk f (.mk .ROOT val .nil) o n)._as_mongo_agregate ⟨[], [], []⟩ =
      ⟨[], [], []⟩ := by
    rw [root_agg]
    rfl
  constructor
  · simp only [FilterElement.as_mongo_agregate, h]
    rfl
  · rw [h]
    rfl

/-- Claim C10: `find_all` and `find_all_lite` rebuild their query from only
the database and collection names before delegating, so two queries that
agree on those names — whatever their filters — produce identical calls and
identical results, for every delegate. -/
theorem claim10_find_all_filter_independent {α : Type} (fq fql : DataBaseQuery → α)
    (q1 q2 : DataBaseQuery) (hdb : q1.data_base = q2.data_base)
    (hc : q1.collection = q2.collection) :
    MongoDbRepository.find_all fq q1 = MongoDbRepository.find_all fq q2 ∧
    MongoDbRepository.find_all_lite fql q1 = MongoDbRepository.find_all_lite fql q2 := by
  constructor <;>
    simp [MongoDbRepository.find_all, MongoDbRepository.find_all_lite, DataBaseQuery.«from»,
      hdb, hc]

/-- Claim C10 witness: a query carrying a filter and the same-named query
carrying none give the same `find_all` and `find_all_lite` outcome for a
concrete delegate that reads every accessible part of the rebuilt query. -/
theorem claim10_find_all_filter_independent_witness :
    (⟨"db", "col", some (FilterElement.mk "a" (.mk .STRING "x" .nil) false false)⟩ :
        DataBaseQuery).data_base = (⟨"db", "col", none⟩ : DataBaseQuery).data_base ∧
    MongoDbRepository.find_all (fun q => q.data_base ++ "/" ++ q.collection)
        ⟨"db", "col", some (FilterElement.mk "a" (.mk .STRING "x" .nil) false false)⟩ =
      MongoDbRepository.find_all (fun q => q.data_base ++ "/" ++ q.collection)
        ⟨"db", "col", none⟩ ∧
    MongoDbRepository.find_all_lite (fun q => q.collection ++ q.data_base)
        ⟨"db", "col", some (FilterElement.mk "a" (.mk .STRING "x" .nil) false false)⟩ =
      MongoDbRepository.find_all_lite (fun q => q.collection ++ q.data_base)
        ⟨"db", "col", none⟩ := by
  refine ⟨rfl, ?_, ?_⟩
  · exact (claim10_find_all_filter_independent (fun q => q.data_base ++ "/" ++ q.collection)
      (fun q => q.collection ++ q.data_base) _ _ rfl rfl).1
  · exact (claim10_find_all_filter_independent (fun q => q.data_base ++ "/" ++ q.collection)
      (fun q => q.collection ++ q.data_base) _ _ rfl rfl).2

/-- Claim C3: in `as_mongo_agregate`, a parse failure of the assembled
pipeline text is returned as an error carrying exactly the parser's
diagnostic message and no pipeline; a parse success is returned as-is with
no error. -/
theorem claim3_serialization_error (e : FilterElement) :
    (∀ msg, from_str (e._as_mongo_agregate ⟨[], [], []⟩).pipeline_str = .error msg →
      e.as_mongo_agregate = .error (ConnectException.new msg)) ∧
    (∀ docs, from_str (e._as_mongo_agregate ⟨[], [], []⟩).pipeline_str = .ok docs →
      e.as_mongo_agregate = .ok docs) := by
  constructor <;> intro x h <;> simp [FilterElement.as_mongo_agregate, h]

/-- A `QUERY` element whose raw fragment is a lone double quote: the
assembled text `[ " ]` is malformed. -/
def badQueryTree : FilterElement := .mk "" (.mk .QUERY "\"" .nil) false false

/-- A `ROOT` with a single conjunctive `STRING` leaf on field `a`. -/
def singleLeafTree : FilterElement :=
  .mk "" (.mk .ROOT "" (.cons (.mk "a" (.mk .STRING "x" .nil) false false) .nil)) false false

/-- Claim C3 witness: on the malformed `QUERY` fragment the compiler
returns the parser's diagnostic wrapped in the exception and nothing else;
on a well-formed tree it returns the parsed pipeline with no error. -/
theorem claim3_serialization_error_witness :
    badQueryTree.as_mongo_agregate =
      .error (ConnectException.new "unexpected end of string literal") ∧
    singleLeafTree.as_mongo_agregate =
      .ok [[("$match", JsonValue.obj [("$and",
        JsonValue.arr [JsonValue.obj [("a", JsonValue.str "x")]])])]] :=
  ⟨(claim3_serialization_error badQueryTree).1 _ rfl,
   (claim3_serialization_error singleLeafTree).2 _ rfl⟩

/-- Claim C4: a `QUERY` element pushes its raw value verbatim into the
stage list, leaving both boolean buckets untouched; over any tree the final
stage list is the raw values of the `QUERY` nodes in traversal order; and
in the serialized stage sequence the joined stages come after the `$match`
stage whenever one exists. -/
theorem claim4_query_stages :
    (∀ (f val : String) (ch : FilterElements) (o n : Bool) (r : QueryItems),
      (FilterElement.mk f (.mk .QUERY val ch) o n)._as_mongo_agregate r =
        { r with queries := r.queries ++ [val] }) ∧
    (∀ (e : FilterElement) (r : QueryItems),
      (e._as_mongo_agregate r).queries = r.queries ++ e.queryRaws) ∧
    (∀ registry : QueryItems, ¬ registry.queries.isEmpty →
      registry.result =
        (if ¬ registry.matches_collection.isEmpty then
          ["\x7b \"$match\": \x7b " ++
            String.intercalate ", " registry.matches_collection ++ " \x7d \x7d"]
        else []) ++ [String.intercalate ", " registry.queries]) := by
  refine ⟨query_agg, FilterElement.elem_agg_queries, ?_⟩
  intro registry h
  simp [QueryItems.result, h]

/-- Claim C4 witness: a registry holding one raw stage and no match
fragment serializes to that stage alone; the `QUERY`-element equation and
the traversal-order equation instantiated at `badQueryTree`-like inputs. -/
theorem claim4_query_stages_witness :
    (FilterElement.mk "" (.mk .QUERY "\x7b \"$limit\": 1 \x7d" .nil) false
        false)._as_mongo_agregate ⟨[], [], []⟩ =
      ⟨[], [], ["\x7b \"$limit\": 1 \x7d"]⟩ ∧
    ¬ (QueryItems.mk [] [] ["\x7b \"$limit\": 1 \x7d"]).queries.isEmpty ∧
    (QueryItems.mk [] [] ["\x7b \"$limit\": 1 \x7d"]).result = ["\x7b \"$limit\": 1 \x7d"] := by
  refine ⟨claim4_query_stages.1 "" "\x7b \"$limit\": 1 \x7d" .nil false false ⟨[], [], []⟩,
    by decide, ?_⟩
  have h := claim4_query_stages.2.2 (QueryItems.mk [] [] ["\x7b \"$limit\": 1 \x7d"]) (by decide)
  rw [h]
  rfl

/-- Claim C8: a `ROOT` whose single child is a `COLLECTION` with
`is_or = true` wrapping two conjunctive leaves on fields `a` and `b`
compiles so that the group is one `$and` clause over the two leaf clauses,
placed as the sole element of `or_fields`, and the match stage is a
top-level `$or` array holding exactly that grouped clause. -/
theorem claim8_group_scenario (rf rv cf cv va vb : String) (ro rn cn na nb : Bool)
    (ca cb : EFilterCategory) (ha : ca.isLeaf = true) (hb : cb.isLeaf = true) :
    (FilterElement.mk rf (.mk .ROOT rv (.cons (FilterElement.mk cf (.mk .COLLECTION cv
        (.cons (FilterElement.mk "a" (.mk ca va .nil) false na)
          (.cons (FilterElement.mk "b" (.mk cb vb .nil) false nb) .nil))) true cn)
        .nil)) ro rn)._as_mongo_agregate ⟨[], [], []⟩ =
      ⟨[], [" \x7b \"$and\": [ " ++ leafClauseText "a" (.mk ca va .nil) na ++ ", " ++
        leafClauseText "b" (.mk cb vb .nil) nb ++ " ] \x7d "], []⟩ ∧
    ((FilterElement.mk rf (.mk .ROOT rv (.cons (FilterElement.mk cf (.mk .COLLECTION cv
        (.cons (FilterElement.mk "a" (.mk ca va .nil) false na)
          (.cons (FilterElement.mk "b" (.mk cb vb .nil) false nb) .nil))) true cn)
        .nil)) ro rn)._as_mongo_agregate ⟨[], [], []⟩).result =
      ["\x7b \"$match\": \x7b \"$or\": [  \x7b \"$and\": [ " ++
        leafClauseText "a" (.mk ca va .nil) na ++ ", " ++
        leafClauseText "b" (.mk cb vb .nil) nb ++ " ] \x7d  ] \x7d \x7d"] := by
  have h1 : (FilterElement.mk "a" (.mk ca va .nil) false na)._as_mongo_agregate ⟨[], [], []⟩ =
      ⟨[leafClauseText "a" (.mk ca va .nil) na], [], []⟩ := by
    rw [leaf_agg "a" ca va .nil false na _ ha]
    simp [QueryItems.pushBucket]
  have h2 : (FilterElement.mk "b" (.mk cb vb .nil) false nb)._as_mongo_agregate
      ⟨[leafClauseText "a" (.mk ca va .nil) na], [], []⟩ =
      ⟨[leafClauseText "a" (.mk ca va .nil) na, leafClauseText "b" (.mk cb vb .nil) nb],
        [], []⟩ := by
    rw [leaf_agg "b" cb vb .nil false nb _ hb]
    simp [QueryItems.pushBucket]
  have h3 : FilterValue.collection_as_mongo_agregate
      (.cons (FilterElement.mk "a" (.mk ca va .nil) false na)
        (.cons (FilterElement.mk "b" (.mk cb vb .nil) false nb) .nil)) ⟨[], [], []⟩ =
      ⟨[leafClauseText "a" (.mk ca va .nil) na, leafClauseText "b" (.mk cb vb .nil) nb],
        [], []⟩ := by
    simp [FilterValue.collection_as_mongo_agregate, h1, h2]
  have h4 : (FilterElement.mk cf (.mk .COLLECTION cv
      (.cons (FilterElement.mk "a" (.mk ca va .nil) false na)
        (.cons (FilterElement.mk "b" (.mk cb vb .nil) false nb) .nil))) true cn)._as_mongo_agregate
      ⟨[], [], []⟩ =
      ⟨[], [" \x7b \"$and\": [ " ++ leafClauseText "a" (.mk ca va .nil) na ++ ", " ++
        leafClauseText "b" (.mk cb vb .nil) nb ++ " ] \x7d "], []⟩ := by
    rw [collection_agg]
    rw [h3]
    simp [QueryItems.pushBucket, andGroupText, intercalate_pair, String.append_assoc]
    simp [← String.append_assoc]
  have h5 : (FilterElement.mk rf (.mk .ROOT rv (.cons (FilterElement.mk cf (.mk .COLLECTION cv
      (.cons (FilterElement.mk "a" (.mk ca va .nil) false na)
        (.cons (FilterElement.mk "b" (.mk cb vb .nil) false nb) .nil))) true cn)
      .nil)) ro rn)._as_mongo_agregate ⟨[], [], []⟩ =
      ⟨[], [" \x7b \"$and\": [ " ++ leafClauseText "a" (.mk ca va .nil) na ++ ", " ++
        leafClauseText "b" (.mk cb vb .nil) nb ++ " ] \x7d "], []⟩ := by
    rw [root_agg]
    simp [FilterValue.collection_as_mongo_agregate, h4]
  refine ⟨h5, ?_⟩
  rw [h5]
  simp [QueryItems.result, QueryItems.matches_collection, intercalate_singleton,
    String.append_assoc]
  simp [← String.append_assoc]

/-- Claim C8 witness: the scenario instantiated with `STRING` leaves
`a = "1"`, `b = "2"`: the group is the sole element of `or_fields`. -/
theorem claim8_group_scenario_witness :
    EFilterCategory.isLeaf .STRING = true ∧
    (FilterElement.mk "" (.mk .ROOT "" (.cons (FilterElement.mk "" (.mk .COLLECTION ""
        (.cons (FilterElement.mk "a" (.mk .STRING "1" .nil) false false)
          (.cons (FilterElement.mk "b" (.mk .STRING "2" .nil) false false) .nil))) true false)
        .nil)) false false)._as_mongo_agregate ⟨[], [], []⟩ =
      ⟨[], [" \x7b \"$and\": [ \x7b \"a\": \"1\" \x7d, \x7b \"b\": \"2\" \x7d ] \x7d "], []⟩ := by
  refine ⟨rfl, ?_⟩
  have h := (claim8_group_scenario "" "" "" "" "1" "2" false false false false false
    .STRING .STRING rfl rfl).1
  rw [h]
  rfl
